import Mathlib

/-!
Shallow embedding of the `ScoreGraph` React component (src/unnamed/part_000).

The component's state consists of: the list of players, `firstPlayerTime`,
`elapsedTime`, `nextPlayerId`, and the mutable `startTimeRef`.  Each player
carries an `id`, `name`, `color`, the `dataPoints` series (pairs of elapsed
time and recorded y-value) and the current `yValue` (score).

Wall-clock time (`Date.now()`) is passed to each operation explicitly as an
integer `now` in milliseconds.  `Math.floor((now - startTime) / 1000)` is
embedded as integer floor division `(now - startTime) / 1000` (Lean's `/` on
`Int` is Euclidean division, which coincides with floor division for the
positive divisor 1000).

The random color and the `prompt` result are oracle parameters of `addPlayer`:
the browser supplies them, the component only consumes them.  A cancelled
prompt is `none`; JS truthiness of the name (`if (playerName)`) rejects both
`null` and the empty string.
-/

namespace ScoreGraph

structure Player where
  id : Nat
  name : String
  color : String
  dataPoints : List (Int × Int)
  yValue : Int
deriving Repr, DecidableEq

structure St where
  players : List Player
  firstPlayerTime : Option Int
  elapsedTime : Int
  nextPlayerId : Nat
  startTime : Int
deriving Repr, DecidableEq

/-- Initial state: lines 16–20 of the source.  `t0` is `Date.now()` at load. -/
def initSt (t0 : Int) : St :=
  { players := [], firstPlayerTime := none, elapsedTime := 0,
    nextPlayerId := 1, startTime := t0 }

/-- `Math.floor((Date.now() - startTimeRef.current) / 1000)`. -/
def currentElapsed (s : St) (now : Int) : Int :=
  (now - s.startTime) / 1000

/-- `addPlayer` (lines 23–47).  `promptResult` is what `prompt` returned
(`none` for cancel); `color` is the randomly generated color string. -/
def addPlayer (s : St) (promptResult : Option String) (color : String)
    (now : Int) : St :=
  match promptResult with
  | none => s
  | some playerName =>
    if playerName = "" then s
    else
      let currentElapsedTime := currentElapsed s now
      { s with
        firstPlayerTime :=
          match s.firstPlayerTime with
          | none => some currentElapsedTime
          | some t => some t,
        players := s.players ++
          [{ id := s.nextPlayerId, name := playerName, color := color,
             dataPoints := [(currentElapsedTime, 0)], yValue := 0 }],
        nextPlayerId := s.nextPlayerId + 1 }

/-- `removePlayer` (lines 50–52). -/
def removePlayer (s : St) (id : Nat) : St :=
  { s with players := s.players.filter (fun player => player.id != id) }

/-- `updateAllPlayersWithTime` (lines 55–68). -/
def updateAllPlayersWithTime (s : St) (now : Int) : St :=
  let currentElapsedTime := currentElapsed s now
  { s with
    players := s.players.map (fun player =>
      { player with
        dataPoints := player.dataPoints ++ [(currentElapsedTime, player.yValue)] }),
    elapsedTime := currentElapsedTime }

/-- `incrementPlayer` (lines 71–81): bump the matching player's `yValue`,
then the synchronized append.  React batches the two functional `setPlayers`
updaters, so the append sees the incremented score. -/
def incrementPlayer (s : St) (id : Nat) (now : Int) : St :=
  let s1 := { s with
    players := s.players.map (fun player =>
      if player.id = id then { player with yValue := player.yValue + 1 }
      else player) }
  updateAllPlayersWithTime s1 now

/-- `decrementPlayer` (lines 84–94). -/
def decrementPlayer (s : St) (id : Nat) (now : Int) : St :=
  let s1 := { s with
    players := s.players.map (fun player =>
      if player.id = id then { player with yValue := player.yValue - 1 }
      else player) }
  updateAllPlayersWithTime s1 now

/-- `changePlayerColor` (lines 97–106). -/
def changePlayerColor (s : St) (id : Nat) (newColor : String) : St :=
  { s with players := s.players.map (fun player =>
      if player.id = id then { player with color := newColor } else player) }

/-- `resetAllPlayers` (lines 109–120). -/
def resetAllPlayers (s : St) (now : Int) : St :=
  { s with
    players := s.players.map (fun player =>
      { player with
        yValue := 0,
        dataPoints := [(match s.firstPlayerTime with
                        | some t => t
                        | none => 0, 0)] }),
    startTime := now,
    elapsedTime := 0,
    firstPlayerTime := none }

/-- The interval callback (lines 147–154): `updateAllPlayersWithTime()`
followed by `setElapsedTime(Math.floor((Date.now() - startTimeRef.current)
/ 1000))`. -/
def tick (s : St) (now : Int) : St :=
  let s1 := updateAllPlayersWithTime s now
  { s1 with elapsedTime := (now - s1.startTime) / 1000 }

/-! ### JSON export (lines 123–144)

`exportToJson` builds the `exportData` object and hands `JSON.stringify` of
it to the browser download machinery.  `JSON.stringify` / `JSON.parse` are
external browser collaborators; the component's own contribution is the
JSON value it builds, so the export is embedded at the level of JSON values:
an inductive `Json` type, the encoder the code builds, and a decoder that
reads the fields back. -/

inductive Json where
  | num (n : Int)
  | str (s : String)
  | arr (elems : List Json)
  | obj (fields : List (String × Json))
deriving Repr

/-- One `[time, yValue]` entry of a `dataPoints` array. -/
def pointToJson (pt : Int × Int) : Json :=
  .arr [.num pt.1, .num pt.2]

/-- One element of `exportData.players` (lines 126–131). -/
def playerToJson (player : Player) : Json :=
  .obj [("id", .num player.id),
        ("name", .str player.name),
        ("color", .str player.color),
        ("dataPoints", .arr (player.dataPoints.map pointToJson))]

/-- The `exportData` object (lines 124–132). -/
def exportToJson (s : St) : Json :=
  .obj [("elapsedTime", .num s.elapsedTime),
        ("players", .arr (s.players.map playerToJson))]

/-- Look up a key in a JSON object. -/
def Json.getField : Json → String → Option Json
  | .obj fields, key => (fields.find? (fun f => f.1 = key)).map Prod.snd
  | _, _ => none

def Json.asNum : Json → Option Int
  | .num n => some n
  | _ => none

def Json.asStr : Json → Option String
  | .str s => some s
  | _ => none

def decodePoint : Json → Option (Int × Int)
  | .arr [.num a, .num b] => some (a, b)
  | _ => none

/-- What a consumer reads back for one player: id, name, color, dataPoints. -/
def decodePlayer (j : Json) : Option (Int × String × String × List (Int × Int)) := do
  let id ← (← j.getField "id").asNum
  let name ← (← j.getField "name").asStr
  let color ← (← j.getField "color").asStr
  match (← j.getField "dataPoints") with
  | .arr pts => do
    let dataPoints ← pts.mapM decodePoint
    pure (id, name, color, dataPoints)
  | _ => none

/-- What a consumer reads back from the whole snapshot. -/
def decodeSnapshot (j : Json) :
    Option (Int × List (Int × String × String × List (Int × Int))) := do
  let elapsedTime ← (← j.getField "elapsedTime").asNum
  match (← j.getField "players") with
  | .arr ps => do
    let players ← ps.mapM decodePlayer
    pure (elapsedTime, players)
  | _ => none

/-! ### Operation traces

An `Op` is one user- or timer-originated event; `applyOp` dispatches it at
wall-clock instant `now`.  `run` folds a list of `(op, now)` events over a
state.  `timesMono t evs` says the wall clock never runs backwards: each
event's `now` is at least `t` and the `now`s are non-decreasing. -/

inductive Op where
  | add (promptResult : Option String) (color : String)
  | remove (id : Nat)
  | inc (id : Nat)
  | dec (id : Nat)
  | setColor (id : Nat) (newColor : String)
  | tick
  | reset
deriving Repr, DecidableEq

def applyOp (s : St) : Op → Int → St
  | .add promptResult color, now => addPlayer s promptResult color now
  | .remove id, _ => removePlayer s id
  | .inc id, now => incrementPlayer s id now
  | .dec id, now => decrementPlayer s id now
  | .setColor id c, _ => changePlayerColor s id c
  | .tick, now => tick s now
  | .reset, now => resetAllPlayers s now

def run (s : St) : List (Op × Int) → St
  | [] => s
  | (op, now) :: rest => run (applyOp s op now) rest

def timesMono : Int → List (Op × Int) → Prop
  | _, [] => True
  | t, (_, now) :: rest => t ≤ now ∧ timesMono now rest

instance instDecidableTimesMono : ∀ t evs, Decidable (timesMono t evs)
  | _, [] => .isTrue trivial
  | t, (_, now) :: rest =>
    have : Decidable (timesMono now rest) := instDecidableTimesMono now rest
    inferInstanceAs (Decidable (t ≤ now ∧ timesMono now rest))

/-- Does this event make `addPlayer` actually add a player?  (JS truthiness
of the prompt result, line 25.) -/
def addSucceeds : Op → Bool
  | .add (some name) _ => name ≠ ""
  | _ => false

/-- The ids handed out along a trace, in order of assignment. -/
def assignedIds (s : St) : List (Op × Int) → List Nat
  | [] => []
  | (op, now) :: rest =>
    (if addSucceeds op then [s.nextPlayerId] else []) ++
      assignedIds (applyOp s op now) rest

/-- A concrete sample state, following the scenario of the spec: Alice added
at elapsed 0, incremented at 5, Bob added at 5, Bob decremented at 8. -/
def sAB : St :=
  decrementPlayer
    (addPlayer
      (incrementPlayer
        (addPlayer (initSt 0) (some "Alice") "#e91e63" 0)
        1 5000)
      (some "Bob") "#2196f3" 5000)
    2 8000

end ScoreGraph

open ScoreGraph

/-- C3: after `resetAllPlayers`, every player's score is 0, every series is
the single point `(firstPlayerTime-before-reset or 0, 0)` (hence has length
exactly 1), `elapsedTime` is 0, the clock origin is reset to `now`, and
`firstPlayerTime` is cleared. -/
theorem resetAll_spec_C3 (s : St) (now : Int) :
    (∀ q ∈ (resetAllPlayers s now).players,
      q.yValue = 0 ∧ q.dataPoints = [(s.firstPlayerTime.getD 0, 0)] ∧
        q.dataPoints.length = 1) ∧
    (resetAllPlayers s now).elapsedTime = 0 ∧
    (resetAllPlayers s now).startTime = now ∧
    (resetAllPlayers s now).firstPlayerTime = none := by
  refine ⟨?_, rfl, rfl, rfl⟩
  intro q hq
  simp only [resetAllPlayers, List.mem_map] at hq
  obtain ⟨p, -, rfl⟩ := hq
  cases s.firstPlayerTime <;> simp [Option.getD]

/-- C9: `resetAllPlayers` is a frame: it keeps the number, order, `id`,
`name` and `color` of all players, and leaves `nextPlayerId` alone. -/
theorem resetAll_frame_C9 (s : St) (now : Int) :
    List.Forall₂ (fun p q => q.id = p.id ∧ q.name = p.name ∧ q.color = p.color)
      s.players (resetAllPlayers s now).players ∧
    (resetAllPlayers s now).players.length = s.players.length ∧
    (resetAllPlayers s now).nextPlayerId = s.nextPlayerId := by
  refine ⟨?_, by simp [resetAllPlayers], rfl⟩
  simp [resetAllPlayers, List.forall₂_map_right_iff, List.forall₂_same]

/-- C10: a successful `addPlayer` performs no synchronized append: the
previously existing players are untouched (the new list is the old list with
one new player appended) and `elapsedTime` and the clock origin are
unchanged. -/
theorem addPlayer_frame_C10 (s : St) (name color : String) (now : Int)
    (h : name ≠ "") :
    ((addPlayer s (some name) color now).players.take s.players.length
       = s.players) ∧
    (addPlayer s (some name) color now).players.length
       = s.players.length + 1 ∧
    (addPlayer s (some name) color now).elapsedTime = s.elapsedTime ∧
    (addPlayer s (some name) color now).startTime = s.startTime := by
  refine ⟨?_, ?_, ?_, ?_⟩ <;> simp [addPlayer, if_neg h, List.take_left]

theorem addPlayer_frame_C10_witness :
    ("Carol" : String) ≠ "" ∧
    (((addPlayer sAB (some "Carol") "#4caf50" 9000).players.take
        sAB.players.length = sAB.players) ∧
     (addPlayer sAB (some "Carol") "#4caf50" 9000).players.length
        = sAB.players.length + 1 ∧
     (addPlayer sAB (some "Carol") "#4caf50" 9000).elapsedTime
        = sAB.elapsedTime ∧
     (addPlayer sAB (some "Carol") "#4caf50" 9000).startTime
        = sAB.startTime) :=
  ⟨by decide, addPlayer_frame_C10 sAB "Carol" "#4caf50" 9000 (by decide)⟩

/-- C5: `addPlayer` with a cancelled prompt (`none`) or an empty name is a
complete no-op, and `removePlayer` with an id held by no player is a
complete no-op; neither signals an error. -/
theorem noop_guards_C5 (s : St) (color : String) (now : Int) (id : Nat)
    (h : ∀ p ∈ s.players, p.id ≠ id) :
    addPlayer s none color now = s ∧
    addPlayer s (some "") color now = s ∧
    removePlayer s id = s := by
  refine ⟨rfl, by simp [addPlayer], ?_⟩
  have : s.players.filter (fun player => player.id != id) = s.players :=
    List.filter_eq_self.2 fun p hp => by
      simpa using h p hp
  simp [removePlayer, this]

theorem noop_guards_C5_witness :
    (∀ p ∈ sAB.players, p.id ≠ 7) ∧
    (addPlayer sAB none "#000" 9000 = sAB ∧
     addPlayer sAB (some "") "#000" 9000 = sAB ∧
     removePlayer sAB 7 = sAB) :=
  ⟨by decide, noop_guards_C5 sAB "#000" 9000 7 (by decide)⟩

/-- C6: `firstPlayerTime` is `none` initially and right after every reset; a
successful `addPlayer` sets it to the current elapsed time when it was
`none`, and leaves it alone when it was already set. -/
theorem firstPlayerTime_C6 (t0 : Int) (s : St) (name color : String)
    (now : Int) (h : name ≠ "") :
    (initSt t0).firstPlayerTime = none ∧
    (resetAllPlayers s now).firstPlayerTime = none ∧
    (s.firstPlayerTime = none →
      (addPlayer s (some name) color now).firstPlayerTime =
        some (currentElapsed s now)) ∧
    (∀ v, s.firstPlayerTime = some v →
      (addPlayer s (some name) color now).firstPlayerTime = some v) := by
  refine ⟨rfl, rfl, ?_, ?_⟩
  · intro hn
    simp [addPlayer, if_neg h, hn]
  · intro v hv
    simp [addPlayer, if_neg h, hv]

theorem firstPlayerTime_C6_witness :
    ("Dave" : String) ≠ "" ∧
    (initSt 0).firstPlayerTime = none ∧
    (resetAllPlayers sAB 9000).firstPlayerTime = none ∧
    (addPlayer (resetAllPlayers sAB 9000) (some "Dave") "#111" 12000).firstPlayerTime
      = some 3 ∧
    (addPlayer sAB (some "Dave") "#111" 9000).firstPlayerTime = some 0 := by
  have h1 := firstPlayerTime_C6 0 (resetAllPlayers sAB 9000) "Dave" "#111" 12000
    (by decide)
  have h2 := firstPlayerTime_C6 0 sAB "Dave" "#111" 9000 (by decide)
  exact ⟨by decide, h1.1, h2.2.1, h1.2.2.1 (by decide), h2.2.2.2 0 (by decide)⟩

/-- C1: after any single `incrementPlayer`, `decrementPlayer` or `tick` on a
state with a non-empty player list, every present player's series grows by
exactly one point, the appended point's x-coordinate is
`floor((now - startTime) / 1000)` for every player, and that value becomes
the new `elapsedTime`. -/
theorem syncAppend_C1 (s : St) (id : Nat) (now : Int) (hne : s.players ≠ []) :
    ((incrementPlayer s id now).elapsedTime = currentElapsed s now ∧
      List.Forall₂ (fun p q => q.dataPoints.length = p.dataPoints.length + 1 ∧
          q.dataPoints.getLast?.map Prod.fst = some (currentElapsed s now))
        s.players (incrementPlayer s id now).players) ∧
    ((decrementPlayer s id now).elapsedTime = currentElapsed s now ∧
      List.Forall₂ (fun p q => q.dataPoints.length = p.dataPoints.length + 1 ∧
          q.dataPoints.getLast?.map Prod.fst = some (currentElapsed s now))
        s.players (decrementPlayer s id now).players) ∧
    ((tick s now).elapsedTime = currentElapsed s now ∧
      List.Forall₂ (fun p q => q.dataPoints.length = p.dataPoints.length + 1 ∧
          q.dataPoints.getLast?.map Prod.fst = some (currentElapsed s now))
        s.players (tick s now).players) := by
  refine ⟨⟨rfl, ?_⟩, ⟨rfl, ?_⟩, ⟨rfl, ?_⟩⟩ <;>
  · simp only [incrementPlayer, decrementPlayer, tick, updateAllPlayersWithTime,
      List.map_map, List.forall₂_map_right_iff]
    refine List.forall₂_same.2 fun p hp => ?_
    by_cases hid : p.id = id <;>
      simp [hid, Function.comp, currentElapsed, List.getLast?_concat]

theorem syncAppend_C1_witness :
    sAB.players ≠ [] ∧
    (((incrementPlayer sAB 1 9000).elapsedTime = currentElapsed sAB 9000 ∧
      List.Forall₂ (fun p q => q.dataPoints.length = p.dataPoints.length + 1 ∧
          q.dataPoints.getLast?.map Prod.fst = some (currentElapsed sAB 9000))
        sAB.players (incrementPlayer sAB 1 9000).players) ∧
    ((decrementPlayer sAB 1 9000).elapsedTime = currentElapsed sAB 9000 ∧
      List.Forall₂ (fun p q => q.dataPoints.length = p.dataPoints.length + 1 ∧
          q.dataPoints.getLast?.map Prod.fst = some (currentElapsed sAB 9000))
        sAB.players (decrementPlayer sAB 1 9000).players) ∧
    ((tick sAB 9000).elapsedTime = currentElapsed sAB 9000 ∧
      List.Forall₂ (fun p q => q.dataPoints.length = p.dataPoints.length + 1 ∧
          q.dataPoints.getLast?.map Prod.fst = some (currentElapsed sAB 9000))
        sAB.players (tick sAB 9000).players)) :=
  ⟨by decide, syncAppend_C1 sAB 1 9000 (by decide)⟩

/-- C2: when a player with the given id is present, `incrementPlayer`
(resp. `decrementPlayer`) changes exactly that player's score by +1
(resp. -1) with no bound (integer arithmetic, may go negative), and the
synchronized append records the target's new post-adjustment score and
every other player's unchanged score. -/
theorem scoreAdjust_C2 (s : St) (id : Nat) (now : Int)
    (h : ∃ p ∈ s.players, p.id = id) :
    List.Forall₂ (fun p q =>
        q.id = p.id ∧ q.name = p.name ∧ q.color = p.color ∧
        q.yValue = (if p.id = id then p.yValue + 1 else p.yValue) ∧
        q.dataPoints = p.dataPoints ++ [(currentElapsed s now, q.yValue)])
      s.players (incrementPlayer s id now).players ∧
    List.Forall₂ (fun p q =>
        q.id = p.id ∧ q.name = p.name ∧ q.color = p.color ∧
        q.yValue = (if p.id = id then p.yValue - 1 else p.yValue) ∧
        q.dataPoints = p.dataPoints ++ [(currentElapsed s now, q.yValue)])
      s.players (decrementPlayer s id now).players := by
  refine ⟨?_, ?_⟩ <;>
  · simp only [incrementPlayer, decrementPlayer, updateAllPlayersWithTime,
      List.map_map, List.forall₂_map_right_iff]
    refine List.forall₂_same.2 fun p hp => ?_
    by_cases hid : p.id = id <;> simp [hid, Function.comp, currentElapsed]

theorem scoreAdjust_C2_witness :
    (∃ p ∈ sAB.players, p.id = 2) ∧
    (List.Forall₂ (fun p q =>
        q.id = p.id ∧ q.name = p.name ∧ q.color = p.color ∧
        q.yValue = (if p.id = 2 then p.yValue + 1 else p.yValue) ∧
        q.dataPoints = p.dataPoints ++ [(currentElapsed sAB 9000, q.yValue)])
      sAB.players (incrementPlayer sAB 2 9000).players ∧
    List.Forall₂ (fun p q =>
        q.id = p.id ∧ q.name = p.name ∧ q.color = p.color ∧
        q.yValue = (if p.id = 2 then p.yValue - 1 else p.yValue) ∧
        q.dataPoints = p.dataPoints ++ [(currentElapsed sAB 9000, q.yValue)])
      sAB.players (decrementPlayer sAB 2 9000).players) :=
  ⟨by decide, scoreAdjust_C2 sAB 2 9000 (by decide)⟩

lemma mapM_loop_decodePoint (l : List (Int × Int)) (acc : List (Int × Int)) :
    List.mapM.loop decodePoint (l.map pointToJson) acc =
      some (acc.reverse ++ l) := by
  induction l generalizing acc with
  | nil => simp [List.mapM.loop]
  | cons a t ih => simp [List.mapM.loop, pointToJson, decodePoint, ih]

lemma mapM_decodePoint (l : List (Int × Int)) :
    (l.map pointToJson).mapM decodePoint = some l := by
  simp [List.mapM, mapM_loop_decodePoint]

lemma decodePlayer_playerToJson (p : Player) :
    decodePlayer (playerToJson p) =
      some ((p.id : Int), p.name, p.color, p.dataPoints) := by
  simp [decodePlayer, playerToJson, Json.getField, Json.asNum, Json.asStr,
    List.find?, mapM_decodePoint, mapM_loop_decodePoint]

lemma mapM_loop_decodePlayer (ps : List Player)
    (acc : List (Int × String × String × List (Int × Int))) :
    List.mapM.loop decodePlayer (ps.map playerToJson) acc =
      some (acc.reverse ++
        ps.map fun p => ((p.id : Int), p.name, p.color, p.dataPoints)) := by
  induction ps generalizing acc with
  | nil => simp [List.mapM.loop]
  | cons p t ih => simp [List.mapM.loop, decodePlayer_playerToJson, ih]

lemma mapM_decodePlayer (ps : List Player) :
    (ps.map playerToJson).mapM decodePlayer =
      some (ps.map fun p => ((p.id : Int), p.name, p.color, p.dataPoints)) := by
  simp [List.mapM, mapM_loop_decodePlayer]

/-- C7: the JSON snapshot built by `exportToJson` round-trips: decoding it
recovers exactly the in-memory `elapsedTime` and, for each player in list
order, that player's `id`, `name`, `color` and series.  (`exportToJson` is a
pure function of the state, so the export mutates nothing.) -/
theorem exportRoundTrip_C7 (s : St) :
    decodeSnapshot (exportToJson s) =
      some (s.elapsedTime,
        s.players.map fun p => ((p.id : Int), p.name, p.color, p.dataPoints)) := by
  simp [decodeSnapshot, exportToJson, Json.getField, Json.asNum, List.find?,
    mapM_decodePlayer, mapM_loop_decodePlayer]

lemma nextPlayerId_mono (s : St) (op : Op) (now : Int) :
    s.nextPlayerId ≤ (applyOp s op now).nextPlayerId := by
  cases op with
  | add pr c =>
    cases pr with
    | none => simp [applyOp, addPlayer]
    | some nm =>
      by_cases h : nm = "" <;> simp [applyOp, addPlayer, h]
  | remove id => simp [applyOp, removePlayer]
  | inc id => simp [applyOp, incrementPlayer, updateAllPlayersWithTime]
  | dec id => simp [applyOp, decrementPlayer, updateAllPlayersWithTime]
  | setColor id c => simp [applyOp, changePlayerColor]
  | tick => simp [applyOp, tick, updateAllPlayersWithTime]
  | reset => simp [applyOp, resetAllPlayers]

lemma addSucceeds_nextPlayerId (s : St) (op : Op) (now : Int)
    (h : addSucceeds op = true) :
    (applyOp s op now).nextPlayerId = s.nextPlayerId + 1 := by
  cases op with
  | add pr c =>
    cases pr with
    | none => simp [addSucceeds] at h
    | some nm =>
      have hnm : nm ≠ "" := by simpa [addSucceeds] using h
      simp [applyOp, addPlayer, hnm]
  | remove id => simp [addSucceeds] at h
  | inc id => simp [addSucceeds] at h
  | dec id => simp [addSucceeds] at h
  | setColor id c => simp [addSucceeds] at h
  | tick => simp [addSucceeds] at h
  | reset => simp [addSucceeds] at h

lemma assignedIds_lb (evs : List (Op × Int)) :
    ∀ (s : St), ∀ x ∈ assignedIds s evs, s.nextPlayerId ≤ x := by
  induction evs with
  | nil => intro s x hx; simp [assignedIds] at hx
  | cons e rest ih =>
    intro s x hx
    obtain ⟨op, now⟩ := e
    rw [assignedIds, List.mem_append] at hx
    rcases hx with hx | hx
    · rcases (by by_cases hs : addSucceeds op <;> simp [hs] at hx ⊢; exact hx :
        x = s.nextPlayerId) with rfl
      exact le_refl _
    · exact le_trans (nextPlayerId_mono s op now) (ih (applyOp s op now) x hx)

lemma assignedIds_pairwise (evs : List (Op × Int)) :
    ∀ (s : St), List.Pairwise (· < ·) (assignedIds s evs) := by
  induction evs with
  | nil => intro s; simp [assignedIds]
  | cons e rest ih =>
    intro s
    obtain ⟨op, now⟩ := e
    rw [assignedIds]
    by_cases hs : addSucceeds op
    · rw [if_pos hs, List.singleton_append]
      refine List.Pairwise.cons (fun x hx => ?_) (ih _)
      have hlb := assignedIds_lb rest (applyOp s op now) x hx
      rw [addSucceeds_nextPlayerId s op now hs] at hlb
      omega
    · rw [if_neg hs, List.nil_append]
      exact ih _

/-- C4: along any sequence of operations from the initial state, the ids
assigned to successfully added players are strictly increasing in order of
assignment, hence pairwise distinct — an id is never reused, also after the
player holding it has been removed. -/
theorem assignedIds_C4 (t0 : Int) (evs : List (Op × Int)) :
    List.Pairwise (· < ·) (assignedIds (initSt t0) evs) ∧
    (assignedIds (initSt t0) evs).Nodup :=
  ⟨assignedIds_pairwise evs (initSt t0),
   (assignedIds_pairwise evs (initSt t0)).imp Nat.ne_of_lt⟩

/-- The x-coordinates of a player's series, in append order. -/
def xsOf (p : Player) : List Int := p.dataPoints.map Prod.fst

/-- Invariant carried along a trace: for every player, the x-coordinates
after the series' first point are non-decreasing and bounded by the elapsed
time the clock would show at instant `t`. -/
def InvTail (s : St) (t : Int) : Prop :=
  ∀ p ∈ s.players, List.Chain' (· ≤ ·) (xsOf p).tail ∧
    ∀ x ∈ (xsOf p).tail, x ≤ currentElapsed s t

/-- Stronger invariant (holds on reset-free traces): the whole series is
non-decreasing and bounded by the current elapsed time. -/
def InvFull (s : St) (t : Int) : Prop :=
  ∀ p ∈ s.players, List.Chain' (· ≤ ·) (xsOf p) ∧
    ∀ x ∈ xsOf p, x ≤ currentElapsed s t

lemma currentElapsed_mono (s : St) {t now : Int} (h : t ≤ now) :
    currentElapsed s t ≤ currentElapsed s now :=
  Int.ediv_le_ediv (by norm_num) (by omega)

lemma invTail_mono {s : St} {t t' : Int} (h : t ≤ t') (hs : InvTail s t) :
    InvTail s t' := fun p hp =>
  ⟨(hs p hp).1, fun x hx =>
    le_trans ((hs p hp).2 x hx) (currentElapsed_mono s h)⟩

lemma invFull_mono {s : St} {t t' : Int} (h : t ≤ t') (hs : InvFull s t) :
    InvFull s t' := fun p hp =>
  ⟨(hs p hp).1, fun x hx =>
    le_trans ((hs p hp).2 x hx) (currentElapsed_mono s h)⟩

lemma chain_le_append_tail (l : List Int) (b e : Int) (hbe : b ≤ e)
    (hc : List.Chain' (· ≤ ·) l.tail) (hb : ∀ x ∈ l.tail, x ≤ b) :
    List.Chain' (· ≤ ·) (l ++ [e]).tail ∧ ∀ x ∈ (l ++ [e]).tail, x ≤ e := by
  cases l with
  | nil => simp
  | cons x0 l' =>
    simp only [List.tail_cons] at hc hb
    simp only [List.cons_append, List.tail_cons]
    constructor
    · rw [List.chain'_append]
      refine ⟨hc, List.chain'_singleton e, ?_⟩
      intro a ha y hy
      simp only [List.head?_cons, Option.mem_def, Option.some.injEq] at hy
      subst hy
      exact le_trans (hb a (List.mem_of_mem_getLast? ha)) hbe
    · intro x hx
      rcases List.mem_append.1 hx with hmem | hmem
      · exact le_trans (hb x hmem) hbe
      · simp only [List.mem_singleton] at hmem
        omega

lemma chain_le_append_full (l : List Int) (b e : Int) (hbe : b ≤ e)
    (hc : List.Chain' (· ≤ ·) l) (hb : ∀ x ∈ l, x ≤ b) :
    List.Chain' (· ≤ ·) (l ++ [e]) ∧ ∀ x ∈ l ++ [e], x ≤ e := by
  constructor
  · rw [List.chain'_append]
    refine ⟨hc, List.chain'_singleton e, ?_⟩
    intro a ha y hy
    simp only [List.head?_cons, Option.mem_def, Option.some.injEq] at hy
    subst hy
    exact le_trans (hb a (List.mem_of_mem_getLast? ha)) hbe
  · intro x hx
    rcases List.mem_append.1 hx with hmem | hmem
    · exact le_trans (hb x hmem) hbe
    · simp only [List.mem_singleton] at hmem
      omega

lemma invTail_premap (s : St) (f : Player → Player)
    (hf : ∀ p, (f p).dataPoints = p.dataPoints) (t : Int) (hs : InvTail s t) :
    InvTail { s with players := s.players.map f } t := by
  intro q hq
  simp only [List.mem_map] at hq
  obtain ⟨p, hp, rfl⟩ := hq
  have hx : xsOf (f p) = xsOf p := by simp [xsOf, hf]
  simpa only [currentElapsed, hx] using hs p hp

lemma invTail_updateAll (s : St) (t now : Int) (ht : t ≤ now)
    (hs : InvTail s t) :
    InvTail (updateAllPlayersWithTime s now) now := by
  intro q hq
  simp only [updateAllPlayersWithTime, List.mem_map] at hq
  obtain ⟨p, hp, rfl⟩ := hq
  have hx : xsOf { p with dataPoints :=
      p.dataPoints ++ [(currentElapsed s now, p.yValue)] } =
      xsOf p ++ [currentElapsed s now] := by simp [xsOf]
  simp only [currentElapsed, hx] at *
  exact chain_le_append_tail (xsOf p) _ _
    (Int.ediv_le_ediv (by norm_num) (by omega)) (hs p hp).1 (hs p hp).2

lemma invFull_premap (s : St) (f : Player → Player)
    (hf : ∀ p, (f p).dataPoints = p.dataPoints) (t : Int) (hs : InvFull s t) :
    InvFull { s with players := s.players.map f } t := by
  intro q hq
  simp only [List.mem_map] at hq
  obtain ⟨p, hp, rfl⟩ := hq
  have hx : xsOf (f p) = xsOf p := by simp [xsOf, hf]
  simpa only [currentElapsed, hx] using hs p hp

lemma invFull_updateAll (s : St) (t now : Int) (ht : t ≤ now)
    (hs : InvFull s t) :
    InvFull (updateAllPlayersWithTime s now) now := by
  intro q hq
  simp only [updateAllPlayersWithTime, List.mem_map] at hq
  obtain ⟨p, hp, rfl⟩ := hq
  have hx : xsOf { p with dataPoints :=
      p.dataPoints ++ [(currentElapsed s now, p.yValue)] } =
      xsOf p ++ [currentElapsed s now] := by simp [xsOf]
  simp only [currentElapsed, hx] at *
  exact chain_le_append_full (xsOf p) _ _
    (Int.ediv_le_ediv (by norm_num) (by omega)) (hs p hp).1 (hs p hp).2

lemma invTail_step (s : St) (op : Op) (t now : Int) (ht : t ≤ now)
    (hs : InvTail s t) : InvTail (applyOp s op now) now := by
  cases op with
  | add pr c =>
    cases pr with
    | none => exact invTail_mono ht hs
    | some nm =>
      by_cases hnm : nm = ""
      · have hrw : applyOp s (.add (some nm) c) now = s := by
          simp [applyOp, addPlayer, hnm]
        rw [hrw]
        exact invTail_mono ht hs
      · intro q hq
        simp [applyOp, addPlayer, hnm] at hq
        rcases hq with hq | rfl
        · simpa [applyOp, addPlayer, hnm, currentElapsed] using
            invTail_mono ht hs q hq
        · simp [applyOp, addPlayer, hnm, xsOf, currentElapsed]
  | remove id =>
    intro q hq
    simp only [applyOp, removePlayer] at hq
    exact invTail_mono ht hs q (List.mem_of_mem_filter hq)
  | inc id =>
    exact invTail_updateAll _ t now ht
      (invTail_premap s _ (fun p => by by_cases h : p.id = id <;> simp [h]) t hs)
  | dec id =>
    exact invTail_updateAll _ t now ht
      (invTail_premap s _ (fun p => by by_cases h : p.id = id <;> simp [h]) t hs)
  | setColor id c =>
    exact invTail_premap s _ (fun p => by by_cases h : p.id = id <;> simp [h])
      now (invTail_mono ht hs)
  | tick =>
    intro q hq
    have hq' : q ∈ (updateAllPlayersWithTime s now).players := hq
    simpa only [currentElapsed] using invTail_updateAll s t now ht hs q hq'
  | reset =>
    intro q hq
    simp only [applyOp, resetAllPlayers, List.mem_map] at hq
    obtain ⟨p, hp, rfl⟩ := hq
    cases s.firstPlayerTime <;> simp [xsOf]

lemma invFull_step (s : St) (op : Op) (t now : Int) (ht : t ≤ now)
    (hop : op ≠ .reset) (hs : InvFull s t) :
    InvFull (applyOp s op now) now := by
  cases op with
  | add pr c =>
    cases pr with
    | none => exact invFull_mono ht hs
    | some nm =>
      by_cases hnm : nm = ""
      · have hrw : applyOp s (.add (some nm) c) now = s := by
          simp [applyOp, addPlayer, hnm]
        rw [hrw]
        exact invFull_mono ht hs
      · intro q hq
        simp [applyOp, addPlayer, hnm] at hq
        rcases hq with hq | rfl
        · simpa [applyOp, addPlayer, hnm, currentElapsed] using
            invFull_mono ht hs q hq
        · simp [applyOp, addPlayer, hnm, xsOf, currentElapsed]
  | remove id =>
    intro q hq
    simp only [applyOp, removePlayer] at hq
    exact invFull_mono ht hs q (List.mem_of_mem_filter hq)
  | inc id =>
    exact invFull_updateAll _ t now ht
      (invFull_premap s _ (fun p => by by_cases h : p.id = id <;> simp [h]) t hs)
  | dec id =>
    exact invFull_updateAll _ t now ht
      (invFull_premap s _ (fun p => by by_cases h : p.id = id <;> simp [h]) t hs)
  | setColor id c =>
    exact invFull_premap s _ (fun p => by by_cases h : p.id = id <;> simp [h])
      now (invFull_mono ht hs)
  | tick =>
    intro q hq
    have hq' : q ∈ (updateAllPlayersWithTime s now).players := hq
    simpa only [currentElapsed] using invFull_updateAll s t now ht hs q hq'
  | reset => exact absurd rfl hop

lemma invTail_run (evs : List (Op × Int)) :
    ∀ (s : St) (t : Int), timesMono t evs → InvTail s t →
      ∃ u, InvTail (run s evs) u := by
  induction evs with
  | nil => exact fun s t _ hs => ⟨t, hs⟩
  | cons e rest ih =>
    intro s t hm hs
    obtain ⟨op, now⟩ := e
    obtain ⟨h1, h2⟩ := hm
    exact ih (applyOp s op now) now h2 (invTail_step s op t now h1 hs)

lemma invFull_run (evs : List (Op × Int)) :
    ∀ (s : St) (t : Int), timesMono t evs → (∀ e ∈ evs, e.1 ≠ Op.reset) →
      InvFull s t → ∃ u, InvFull (run s evs) u := by
  induction evs with
  | nil => exact fun s t _ _ hs => ⟨t, hs⟩
  | cons e rest ih =>
    intro s t hm hnr hs
    obtain ⟨op, now⟩ := e
    obtain ⟨h1, h2⟩ := hm
    exact ih (applyOp s op now) now h2 (fun e he => hnr e (List.mem_cons_of_mem _ he))
      (invFull_step s op t now h1 (hnr (op, now) (List.mem_cons_self _ _)) hs)

/-- C8 as stated is false: add a player at elapsed time 5 (so
`firstPlayerTime = 5`), reset (the reset point is written at x = 5 while the
clock restarts at the reset instant), then tick one second later — the tick
appends x = 1 after the reset point's x = 5, so the x-coordinates decrease
even though the wall clock only moved forward. -/
theorem seriesNondecreasing_C8_counterexample :
    timesMono 0 [(Op.add (some "A") "#a0a0a0", 5000), (Op.reset, 5000),
      (Op.tick, 6000)] ∧
    ¬ ∀ p ∈ (run (initSt 0) [(Op.add (some "A") "#a0a0a0", 5000),
        (Op.reset, 5000), (Op.tick, 6000)]).players,
      List.Chain' (· ≤ ·) (xsOf p) := by
  refine ⟨by decide, fun h => ?_⟩
  have hmem : ({ id := 1, name := "A", color := "#a0a0a0",
                 dataPoints := [(5, 0), (1, 0)], yValue := 0 } : Player) ∈
      (run (initSt 0) [(Op.add (some "A") "#a0a0a0", 5000),
        (Op.reset, 5000), (Op.tick, 6000)]).players := by decide
  have hchain := h _ hmem
  have h51 : (5 : Int) ≤ 1 := by
    have : List.Chain' (· ≤ ·) ([5, 1] : List Int) := hchain
    exact (List.chain'_cons.1 this).1
  omega

/-- C8, amended: along any wall-clock-monotone trace from the initial state,
every player's series has non-decreasing x-coordinates from its second point
on; and on traces containing no reset the whole series (first point
included) has non-decreasing x-coordinates.  (The one point written by
`resetAllPlayers` carries the pre-reset `firstPlayerTime` while the clock
restarts, so it may exceed the x-coordinates appended after it.) -/
theorem seriesNondecreasing_C8_amended (t0 : Int) (evs : List (Op × Int))
    (h : timesMono t0 evs) :
    (∀ p ∈ (run (initSt t0) evs).players,
      List.Chain' (· ≤ ·) (xsOf p).tail) ∧
    ((∀ e ∈ evs, e.1 ≠ Op.reset) →
      ∀ p ∈ (run (initSt t0) evs).players,
        List.Chain' (· ≤ ·) (xsOf p)) := by
  constructor
  · obtain ⟨u, hu⟩ := invTail_run evs (initSt t0) t0 h
      (fun p hp => absurd hp (by simp [initSt]))
    exact fun p hp => (hu p hp).1
  · intro hnr
    obtain ⟨u, hu⟩ := invFull_run evs (initSt t0) t0 h hnr
      (fun p hp => absurd hp (by simp [initSt]))
    exact fun p hp => (hu p hp).1

theorem seriesNondecreasing_C8_witness :
    timesMono 0 [(Op.add (some "A") "#a0a0a0", 0), (Op.inc 1, 5000),
      (Op.add (some "B") "#b0b0b0", 5000), (Op.dec 2, 8000)] ∧
    ((∀ p ∈ (run (initSt 0) [(Op.add (some "A") "#a0a0a0", 0), (Op.inc 1, 5000),
        (Op.add (some "B") "#b0b0b0", 5000), (Op.dec 2, 8000)]).players,
      List.Chain' (· ≤ ·) (xsOf p).tail) ∧
    ((∀ e ∈ ([(Op.add (some "A") "#a0a0a0", 0), (Op.inc 1, 5000),
        (Op.add (some "B") "#b0b0b0", 5000), (Op.dec 2, 8000)] :
          List (Op × Int)),
        e.1 ≠ Op.reset) →
      ∀ p ∈ (run (initSt 0) [(Op.add (some "A") "#a0a0a0", 0), (Op.inc 1, 5000),
          (Op.add (some "B") "#b0b0b0", 5000), (Op.dec 2, 8000)]).players,
        List.Chain' (· ≤ ·) (xsOf p))) :=
  ⟨by decide,
   seriesNondecreasing_C8_amended 0
     [(Op.add (some "A") "#a0a0a0", 0), (Op.inc 1, 5000),
      (Op.add (some "B") "#b0b0b0", 5000), (Op.dec 2, 8000)] (by decide)⟩

/-! Sanity checks: the worked scenario of the specification (Alice added at
elapsed 0, incremented at 5; Bob added at 5, decremented at 8), and the
export of a one-player state. -/

example :
    sAB.players.map (fun p => (p.name, p.yValue, p.dataPoints)) =
      [("Alice", 1, [(0, 0), (5, 1), (8, 1)]),
       ("Bob", -1, [(5, 0), (8, -1)])] ∧
    sAB.firstPlayerTime = some 0 := by decide

example :
    (resetAllPlayers sAB 9000).players.map
        (fun p => (p.name, p.yValue, p.dataPoints)) =
      [("Alice", 0, [(0, 0)]), ("Bob", 0, [(0, 0)])] ∧
    (resetAllPlayers sAB 9000).firstPlayerTime = none := by decide

example :
    decodeSnapshot (exportToJson (addPlayer (initSt 0) (some "Alice") "#abc" 0)) =
      some (0, [(1, "Alice", "#abc", [(0, 0)])]) := by rfl

example :
    assignedIds (initSt 0)
      [(.add (some "A") "#a", 0), (.add none "#b", 1), (.remove 1, 2),
       (.add (some "B") "#c", 3)] = [1, 2] := by rfl
